import Mathlib

/-!
Verification of the request-to-rule resolution engine of `static-json-api`
(`src/app.controller.ts`, method `getRepoPage` and its helper
`getRequestedData`).

The controller resolves one inbound request (method, extended path, body)
against a configuration document: it selects the rule list for the request's
method (case-insensitively), scans the rules in declared order, commits on the
first rule whose compiled path template matches the extended path, validates
the body for guarded rules, locates the response data, and optionally arms a
deferred outbound notification.

External collaborators that are not part of this repository's decision logic
(the `path-to-regexp` matcher, Node's `path.join` combined with Nest's
`normalizePath`, the raw-file fetch plus `JSON.parse`, and the WHATWG `URL`
constructor) are abstracted as the fields of `Externals`; theorems quantify
over them. Repository helpers that live outside the provided source
(`getSubRecordFromRoot`, the configuration classes of
`services/configuration.ts`) are modelled from the spec, as marked in their
doc comments.
-/

namespace StaticJsonApi

/-- A JSON/YAML document value, as produced by parsing the configuration or a
data file. Objects keep their fields as an ordered association list, numbers
are modelled as integers (no claim exercises fractional values). -/
inductive Json where
  | null : Json
  | bool (b : Bool) : Json
  | num (n : Int) : Json
  | str (s : String) : Json
  | arr (elems : List Json) : Json
  | obj (fields : List (String × Json)) : Json
deriving Repr, BEq

/-- `const configFileName = '.mockapi.yml'` (line 30): the sentinel file name
meaning "use the configuration document itself as the data source". -/
def configFileName : String := ".mockapi.yml"

/-- Modelled from the spec: the `scheduleNotification` policy of a Guarded
Rule (class from `services/configuration.ts`, not under the provided source):
`followProp` names the request-body field expected to hold the target URL,
`notificationMethod` is the optional HTTP verb (code applies `?? 'GET'`),
`timeoutInSecond` is the delay before firing. -/
structure NotificationConfig where
  followProp : String
  notificationMethod : Option String
  timeoutInSecond : Nat
deriving Repr, DecidableEq

/-- Modelled from the spec: the Guarded Rule class `PostApi` from
`services/configuration.ts` (not under the provided source), as used by the
controller: a path template, an optional `bodyFields` mapping (field name to
mandatory flag; code applies `?? {}`), a `restrictedBody` flag, and an
optional notification policy. -/
structure PostApi where
  path : String
  bodyFields : Option (List (String × Bool))
  restrictedBody : Bool
  scheduleNotification : Option NotificationConfig
deriving Repr, DecidableEq

/-- One element of a method's rule list as the controller classifies it
(lines 92 and 114): a string (Simple Rule), a `PostApi` instance (Guarded
Rule), or any other value, which matches neither `typeof pathConfig ==
'string'` nor `pathConfig instanceof PostApi` and is skipped. -/
inductive PathConfig where
  | str (s : String) : PathConfig
  | post (p : PostApi) : PathConfig
  | other (j : Json) : PathConfig
deriving Repr

/-- The value under one key of `configData.routes`: either an actual array of
rules, or any non-array value (line 82 checks `methodConfig instanceof
Array`). -/
inductive RouteValue where
  | rules (rs : List PathConfig) : RouteValue
  | notArray (j : Json) : RouteValue
deriving Repr

/-- Modelled from the spec: the parsed configuration `MockApiConfig` from
`services/configuration.ts` (not under the provided source): `apiRoutePrefix`
is joined before every rule path, `dbFile` names the response-data file
(sentinel `configFileName` means the config document itself), `dbDataPath` is
the deep path locating the response sub-value, `routes` maps method names to
rule lists in declared order. `doc` is the configuration document itself as a
JSON value, which line 201 exposes to deep-path extraction by casting the
config instance to a plain record. -/
structure MockApiConfig where
  apiRoutePrefix : String
  dbFile : String
  dbDataPath : String
  routes : List (String × RouteValue)
  doc : Json

/-- The external collaborators the controller calls, abstracted as functions;
every theorem quantifies over them. `template p r` stands for
`normalizePath(path.join(p, r))` (libraries `path` and
`@nestjs/common`); `test t ep` stands for
`pathToRegexp(t, [], {sensitive: false, strict: false, end: true}).exec(ep)
!= null` (library `path-to-regexp`); `fetchDoc f` stands for `getRawFile` on
the two candidate URLs for file `f` followed by `JSON.parse`, `none` meaning
both candidates failed; `parseURL v` stands for `new URL(v).toString()`,
`none` meaning the constructor throws a `TypeError`. -/
structure Externals where
  template : String → String → String
  test : String → String → Bool
  fetchDoc : String → Option Json
  parseURL : Json → Option String

/-- One armed outbound notification: the `axios.request` registered by
`setTimeout` at lines 170-176, with its HTTP method, target URL, scheduling
delay in milliseconds (`timeoutInSecond * 1000`) and the fixed 5000 ms call
timeout. -/
structure ScheduledCall where
  method : String
  url : String
  delayMs : Nat
  callTimeoutMs : Nat
deriving Repr, DecidableEq

/-- The outcome of one resolution, one constructor per exit of `getRepoPage`
after the configuration has been loaded: the returned data with the list of
scheduled notifications, `MethodNotAllowedException` (line 187),
`NotFoundException` with the unmatched path (line 181), the bare
`NotFoundException` for a failed data lookup (lines 110 and 162),
`InternalServerErrorException` for a non-array rule list (line 87), the
uncaught `TypeError` thrown by `new URL` on a malformed endpoint (line 169,
surfaced by the framework as an internal server error), and the two
`BadRequestException`s of body validation (lines 137 and 148). -/
inductive Outcome where
  | ok (value : Json) (scheduled : List ScheduledCall) : Outcome
  | methodNotAllowed : Outcome
  | noRuleMatched (path : String) : Outcome
  | notFound : Outcome
  | internalError : Outcome
  | uncaughtTypeError : Outcome
  | badRequestDisallowed (fields : List String) : Outcome
  | badRequestMissing (fields : List String) : Outcome
deriving Repr

/-- Whether an outcome is a `BadRequestException` of body validation or of
the notification target — the "client input error" class of the design. -/
def Outcome.isBadRequest : Outcome → Bool
  | .badRequestDisallowed _ => true
  | .badRequestMissing _ => true
  | _ => false

/-- JavaScript property read `record[key]`: the first field with the key, or
absent. -/
def lookupField (key : String) : List (String × Json) → Option Json
  | [] => none
  | (k, v) :: rest => if k == key then some v else lookupField key rest

/-- Lookup in the `bodyFields` mapping: `bodyFields[field]`. -/
def lookupFlag (key : String) : List (String × Bool) → Option Bool
  | [] => none
  | (k, v) :: rest => if k == key then some v else lookupFlag key rest

/-- JavaScript truthiness of a JSON value (`NaN` has no counterpart in the
integer model). -/
def jsTruthy : Json → Bool
  | .null => false
  | .bool b => b
  | .num n => n != 0
  | .str s => s != ""
  | .arr _ => true
  | .obj _ => true

/-- JavaScript `String.prototype.toUpperCase()` as the controller applies it
to ASCII HTTP method names (lines 74 and 78): upper-case every character. -/
def jsToUpperCase (s : String) : String :=
  String.mk (s.data.map Char.toUpper)

/-- The separator characters of a dot/slash-style deep path. -/
def isSep (c : Char) : Bool := c == '.' || c == '/'

/-- Split a character list into segments at separator characters. -/
def splitSegsAux : List Char → List Char → List String
  | [], acc => [String.mk acc.reverse]
  | c :: rest, acc =>
      if isSep c then String.mk acc.reverse :: splitSegsAux rest []
      else splitSegsAux rest (c :: acc)

/-- Modelled from the spec: `getSubRecordFromRoot` lives in
`src/utils/util.ts`, which is not under the provided source. The spec requires
dot/slash-style deep paths: the path is split into segments on `.` and `/`
(empty segments ignored). -/
def splitDataPath (p : String) : List String :=
  (splitSegsAux p.data []).filter (fun s => s != "")

/-- Modelled from the spec: the segment walk of `getSubRecordFromRoot` —
follow each segment through an object field, returning the nested value, or
absent as soon as a segment has no corresponding node. -/
def walkPath : List String → Json → Option Json
  | [], j => some j
  | key :: rest, .obj fields =>
      match lookupField key fields with
      | some v => walkPath rest v
      | none => none
  | _ :: _, _ => none

/-- Modelled from the spec: `getSubRecordFromRoot(dataPath, root)` from
`src/utils/util.ts` (not under the provided source) — extract the sub-value
at a dot/slash deep path, or absent if the path has no corresponding node. -/
def getSubRecordFromRoot (dataPath : String) (root : Json) : Option Json :=
  walkPath (splitDataPath dataPath) root

/-- `getRequestedData` (lines 193-223): if `dbFile` is the configuration-file
sentinel, extract `dbDataPath` from the configuration document itself;
otherwise fetch the named file from the two candidate sources (abstracted as
`ext.fetchDoc`), returning `none` when both fail, and extract `dbDataPath`
from the parsed result. -/
def getRequestedData (cfg : MockApiConfig) (ext : Externals) : Option Json :=
  if cfg.dbFile == configFileName then
    getSubRecordFromRoot cfg.dbDataPath cfg.doc
  else
    match ext.fetchDoc cfg.dbFile with
    | none => none
    | some d => getSubRecordFromRoot cfg.dbDataPath d

/-- JavaScript truthiness-negation of an `Array.prototype.find` result over
strings on the predicate `(e) => e == k`: `!find(...)` is true when no
element is found (`undefined`) and also when the found element — necessarily
`k` itself — is the falsy empty string. -/
def jsFindFalsy (l : List String) (k : String) : Bool :=
  match l.find? (fun e => e == k) with
  | none => true
  | some s => s == ""

/-- Lines 133-135: `requestBodyKey.filter((k) => !bodyFields.find((e) => e ==
k))` — the request body keys at which `find` over the declared field names
yields a falsy result (undeclared keys, and an empty-string key even when
declared). -/
def notAllowedFields (bodyFields requestBodyKey : List String) : List String :=
  requestBodyKey.filter (fun k => jsFindFalsy bodyFields k)

/-- Lines 142-146: the declared field names whose flag is `=== true` and at
which `find` over the request body keys yields a falsy result (absent fields,
and an empty-string field even when present). -/
def missingFields (declared : List (String × Bool)) (requestBodyKey : List String) :
    List String :=
  (declared.map Prod.fst).filter
    (fun field => lookupFlag field declared == some true && jsFindFalsy requestBodyKey field)

/-- The body validation of a matched Guarded Rule (lines 129-153): with
`bodyFields := Object.keys(pathConfig.bodyFields ?? {})`, first the
restricted-body check (only when `restrictedBody` is set) reporting the
not-allowed fields, then the mandatory-field check reporting the missing
fields; `none` when validation passes. -/
def bodyValidationError (pa : PostApi) (requestBodyKey : List String) : Option Outcome :=
  let declared := pa.bodyFields.getD []
  let bodyFields := declared.map Prod.fst
  let notAllowed := notAllowedFields bodyFields requestBodyKey
  if pa.restrictedBody && !notAllowed.isEmpty then
    some (.badRequestDisallowed notAllowed)
  else
    let missing := missingFields declared requestBodyKey
    if !missing.isEmpty then some (.badRequestMissing missing) else none

/-- The tail of a committed Simple Rule (lines 104-112): retrieve the data
and 404 when it is absent or falsy (`if (!requestedData)`), else return it
with no scheduled notification. -/
def commitSimple (ext : Externals) (cfg : MockApiConfig) : Outcome :=
  match getRequestedData cfg ext with
  | none => .notFound
  | some data => if !(jsTruthy data) then .notFound else .ok data []

/-- The notification step of a committed Guarded Rule (lines 166-177): when a
policy is declared and `requestBody[followProp]` is truthy, `new URL` parses
the endpoint (a thrown `TypeError` escapes uncaught) and one `axios.request`
is registered `timeoutInSecond * 1000` ms later with the policy's method
(`?? 'GET'`) and a 5000 ms call timeout. -/
def scheduleStep (ext : Externals) (requestBody : List (String × Json))
    (pa : PostApi) (data : Json) : Outcome :=
  match pa.scheduleNotification with
  | none => .ok data []
  | some nc =>
      match lookupField nc.followProp requestBody with
      | none => .ok data []
      | some v =>
          if jsTruthy v then
            match ext.parseURL v with
            | none => .uncaughtTypeError
            | some u =>
                .ok data
                  [⟨nc.notificationMethod.getD "GET", u, nc.timeoutInSecond * 1000, 5000⟩]
          else .ok data []

/-- The tail of a committed Guarded Rule (lines 129-178): body validation,
then data retrieval with 404 on an absent or falsy result, then the
notification step. -/
def commitGuarded (ext : Externals) (cfg : MockApiConfig)
    (requestBody : List (String × Json)) (pa : PostApi) : Outcome :=
  match bodyValidationError pa (requestBody.map Prod.fst) with
  | some e => e
  | none =>
      match getRequestedData cfg ext with
      | none => .notFound
      | some data =>
          if !(jsTruthy data) then .notFound
          else scheduleStep ext requestBody pa data

/-- Whether a rule's compiled path template matches the extended path: the
`pathToRegexp(...).exec` test on `path.join(configData.apiRoutePrefix, p)`,
lines 93-99 and 115-124. An element of neither rule variant is never tested
and never matches. -/
def ruleMatches (ext : Externals) (cfg : MockApiConfig) (extendedPath : String) :
    PathConfig → Bool
  | .str p => ext.test (ext.template cfg.apiRoutePrefix p) extendedPath
  | .post pa => ext.test (ext.template cfg.apiRoutePrefix pa.path) extendedPath
  | .other _ => false

/-- The inner rule scan of `getRepoPage` (lines 91-183): rules in declared
order, the first whose template matches commits (Simple or Guarded tail); a
value of neither variant is skipped; an exhausted list throws
`NotFoundException` carrying the extended path. -/
def scanRules (ext : Externals) (cfg : MockApiConfig) (extendedPath : String)
    (requestBody : List (String × Json)) : List PathConfig → Outcome
  | [] => .noRuleMatched extendedPath
  | pc :: rest =>
      match pc with
      | .str p =>
          if ext.test (ext.template cfg.apiRoutePrefix p) extendedPath then
            commitSimple ext cfg
          else scanRules ext cfg extendedPath requestBody rest
      | .post pa =>
          if ext.test (ext.template cfg.apiRoutePrefix pa.path) extendedPath then
            commitGuarded ext cfg requestBody pa
          else scanRules ext cfg extendedPath requestBody rest
      | .other _ => scanRules ext cfg extendedPath requestBody rest

/-- The method lookup of the outer loop (lines 77-80): the first entry of
`routes` whose key upper-cases to the (upper-cased) request method; every
matching entry returns or throws, so only the first is ever processed. -/
def findMethodConfig (requestMethod : String) :
    List (String × RouteValue) → Option RouteValue
  | [] => none
  | (m, mc) :: rest =>
      if jsToUpperCase m == requestMethod then some mc
      else findMethodConfig requestMethod rest

/-- `getRepoPage` after the configuration has been loaded (lines 74-191):
upper-case the request method, find its routes entry (none matching throws
`MethodNotAllowedException`), reject a non-array rule list with
`InternalServerErrorException`, and scan the rules. -/
def getRepoPage (ext : Externals) (cfg : MockApiConfig) (reqMethod : String)
    (extendedPath : String) (requestBody : List (String × Json)) : Outcome :=
  let requestMethod := jsToUpperCase reqMethod
  match findMethodConfig requestMethod cfg.routes with
  | none => .methodNotAllowed
  | some (.notArray _) => .internalError
  | some (.rules rs) => scanRules ext cfg extendedPath requestBody rs

/-! ### Helper lemmas -/

theorem findMethodConfig_eq_none (rm : String) (routes : List (String × RouteValue))
    (h : ∀ p ∈ routes, jsToUpperCase p.1 ≠ rm) : findMethodConfig rm routes = none := by
  induction routes with
  | nil => rfl
  | cons p rest ih =>
    have h1 : jsToUpperCase p.1 ≠ rm := h p (List.mem_cons_self ..)
    have h2 : ∀ q ∈ rest, jsToUpperCase q.1 ≠ rm := fun q hq => h q (List.mem_cons_of_mem _ hq)
    obtain ⟨m, mc⟩ := p
    simp only [findMethodConfig]
    rw [if_neg (by simpa using h1)]
    exact ih h2

theorem findMethodConfig_first (rm : String) (entry : String × RouteValue)
    (pre post : List (String × RouteValue))
    (hpre : ∀ p ∈ pre, jsToUpperCase p.1 ≠ rm) (hk : jsToUpperCase entry.1 = rm) :
    findMethodConfig rm (pre ++ entry :: post) = some entry.2 := by
  induction pre with
  | nil =>
    obtain ⟨m, mc⟩ := entry
    simp only [List.nil_append, findMethodConfig]
    rw [if_pos (by simpa using hk)]
  | cons p rest ih =>
    have h1 : jsToUpperCase p.1 ≠ rm := hpre p (List.mem_cons_self ..)
    have h2 : ∀ q ∈ rest, jsToUpperCase q.1 ≠ rm := fun q hq => hpre q (List.mem_cons_of_mem _ hq)
    obtain ⟨m, mc⟩ := p
    simp only [List.cons_append, findMethodConfig]
    rw [if_neg (by simpa using h1)]
    exact ih h2

theorem scanRules_append_no_match (ext : Externals) (cfg : MockApiConfig)
    (ep : String) (body : List (String × Json)) (pre rest : List PathConfig)
    (h : ∀ r ∈ pre, ruleMatches ext cfg ep r = false) :
    scanRules ext cfg ep body (pre ++ rest) = scanRules ext cfg ep body rest := by
  induction pre with
  | nil => rfl
  | cons r pre ih =>
    have h1 : ruleMatches ext cfg ep r = false := h r (List.mem_cons_self ..)
    have h2 : ∀ q ∈ pre, ruleMatches ext cfg ep q = false :=
      fun q hq => h q (List.mem_cons_of_mem _ hq)
    cases r with
    | str p =>
      simp only [ruleMatches] at h1
      simp only [List.cons_append, scanRules, h1, Bool.false_eq_true, if_false]
      exact ih h2
    | post pa =>
      simp only [ruleMatches] at h1
      simp only [List.cons_append, scanRules, h1, Bool.false_eq_true, if_false]
      exact ih h2
    | other j =>
      simp only [List.cons_append, scanRules]
      exact ih h2

theorem scanRules_cons_commit (ext : Externals) (cfg : MockApiConfig)
    (ep : String) (body : List (String × Json)) (r : PathConfig)
    (rest : List PathConfig) (hr : ruleMatches ext cfg ep r = true) :
    scanRules ext cfg ep body (r :: rest) =
      match r with
      | .str _ => commitSimple ext cfg
      | .post pa => commitGuarded ext cfg body pa
      | .other _ => scanRules ext cfg ep body rest := by
  cases r with
  | str p =>
    simp only [ruleMatches] at hr
    simp only [scanRules, hr, if_true]
  | post pa =>
    simp only [ruleMatches] at hr
    simp only [scanRules, hr, if_true]
  | other j => simp only [scanRules]

theorem getRequestedData_eq_none (cfg : MockApiConfig) (ext : Externals)
    (hext : cfg.dbFile ≠ configFileName)
    (hfail : ext.fetchDoc cfg.dbFile = none ∨
      ∃ d, ext.fetchDoc cfg.dbFile = some d ∧
        getSubRecordFromRoot cfg.dbDataPath d = none) :
    getRequestedData cfg ext = none := by
  simp only [getRequestedData]
  rw [if_neg (by simpa using hext)]
  rcases hfail with h | ⟨d, hd, hw⟩
  · rw [h]
  · rw [hd]
    exact hw

theorem jsFindFalsy_iff (l : List String) (k : String) :
    jsFindFalsy l k = true ↔ (k ∉ l ∨ k = "") := by
  rcases hf : l.find? (fun e => e == k) with _ | s
  · have hnone := List.find?_eq_none.mp hf k
    simp only [jsFindFalsy, hf]
    constructor
    · intro _
      left
      intro hmem
      have := hnone hmem
      simp at this
    · intro _
      trivial
  · have hs : s = k := by simpa using List.find?_some hf
    have hmem : s ∈ l := List.mem_of_find?_eq_some hf
    subst hs
    simp only [jsFindFalsy, hf]
    constructor
    · intro h
      right
      simpa using h
    · rintro (h | h)
      · exact absurd hmem h
      · simpa using h

theorem lookupFlag_eq_some_mem (k : String) (l : List (String × Bool)) (b : Bool)
    (h : lookupFlag k l = some b) : k ∈ l.map Prod.fst := by
  induction l with
  | nil => simp [lookupFlag] at h
  | cons p rest ih =>
    obtain ⟨k', v⟩ := p
    simp only [lookupFlag] at h
    by_cases hk : k' = k
    · simp [hk]
    · rw [if_neg (by simpa using hk)] at h
      simpa using Or.inr (ih h)

theorem getRepoPage_first_match (ext : Externals) (cfg : MockApiConfig)
    (reqMethod ep : String) (body : List (String × Json))
    (pre post : List PathConfig) (r : PathConfig)
    (hfind : findMethodConfig (jsToUpperCase reqMethod) cfg.routes =
      some (.rules (pre ++ r :: post)))
    (hpre : ∀ r' ∈ pre, ruleMatches ext cfg ep r' = false)
    (hr : ruleMatches ext cfg ep r = true) :
    getRepoPage ext cfg reqMethod ep body = scanRules ext cfg ep body [r] := by
  simp only [getRepoPage, hfind]
  rw [scanRules_append_no_match ext cfg ep body pre (r :: post) hpre]
  rw [scanRules_cons_commit ext cfg ep body r post hr]
  rw [scanRules_cons_commit ext cfg ep body r [] hr]
  cases r with
  | str p => rfl
  | post pa => rfl
  | other j => simp [ruleMatches] at hr

theorem getRepoPage_commit_guarded (ext : Externals) (cfg : MockApiConfig)
    (reqMethod ep : String) (body : List (String × Json))
    (pre post : List PathConfig) (pa : PostApi)
    (hfind : findMethodConfig (jsToUpperCase reqMethod) cfg.routes =
      some (.rules (pre ++ .post pa :: post)))
    (hpre : ∀ r' ∈ pre, ruleMatches ext cfg ep r' = false)
    (hr : ruleMatches ext cfg ep (.post pa) = true) :
    getRepoPage ext cfg reqMethod ep body = commitGuarded ext cfg body pa := by
  rw [getRepoPage_first_match ext cfg reqMethod ep body pre post _ hfind hpre hr]
  rw [scanRules_cons_commit ext cfg ep body _ [] hr]

/-! ### Claim theorems -/

/-- C2: for every configuration and request, if no key of `config.routes`
equals the request's method under case-insensitive (upper-cased) comparison,
resolution yields the method-not-allowed outcome, regardless of path and
body. -/
theorem methodNotMatchedOutcome (ext : Externals) (cfg : MockApiConfig)
    (reqMethod ep : String) (body : List (String × Json))
    (h : ∀ p ∈ cfg.routes, jsToUpperCase p.1 ≠ jsToUpperCase reqMethod) :
    getRepoPage ext cfg reqMethod ep body = .methodNotAllowed := by
  simp only [getRepoPage]
  rw [findMethodConfig_eq_none _ _ h]

/-- C9: when the first routes entry whose key matches the request method
(case-insensitively) holds a non-array value, resolution yields the internal
configuration error, which is distinct from the method-not-allowed, no-rule
and not-found outcomes. -/
theorem invalidRuleListInternalError (ext : Externals) (cfg : MockApiConfig)
    (reqMethod ep : String) (body : List (String × Json)) (k : String) (j : Json)
    (pre post : List (String × RouteValue))
    (hroutes : cfg.routes = pre ++ (k, RouteValue.notArray j) :: post)
    (hpre : ∀ p ∈ pre, jsToUpperCase p.1 ≠ jsToUpperCase reqMethod)
    (hk : jsToUpperCase k = jsToUpperCase reqMethod) :
    getRepoPage ext cfg reqMethod ep body = .internalError ∧
    Outcome.internalError ≠ Outcome.methodNotAllowed ∧
    (∀ p, Outcome.internalError ≠ Outcome.noRuleMatched p) ∧
    Outcome.internalError ≠ Outcome.notFound := by
  refine ⟨?_, fun h => Outcome.noConfusion h, fun p h => Outcome.noConfusion h,
    fun h => Outcome.noConfusion h⟩
  simp only [getRepoPage, hroutes]
  rw [findMethodConfig_first _ ⟨k, RouteValue.notArray j⟩ _ _ hpre hk]

/-- C1: when the request method matches a routes key, the rules of that
method's list are tested in declared order and the first rule whose compiled
path template matches the request path commits the resolution: the outcome is
that of the matched rule alone (independent of every later rule), and when
the committed rule is a Guarded Rule whose body validation fails, resolution
aborts immediately with that validation error instead of falling through. -/
theorem firstMatchCommits (ext : Externals) (cfg : MockApiConfig)
    (reqMethod ep : String) (body : List (String × Json))
    (pre post : List PathConfig) (r : PathConfig)
    (hfind : findMethodConfig (jsToUpperCase reqMethod) cfg.routes =
      some (.rules (pre ++ r :: post)))
    (hpre : ∀ r' ∈ pre, ruleMatches ext cfg ep r' = false)
    (hr : ruleMatches ext cfg ep r = true) :
    getRepoPage ext cfg reqMethod ep body = scanRules ext cfg ep body [r] ∧
    (∀ pa e, r = PathConfig.post pa →
      bodyValidationError pa (body.map Prod.fst) = some e →
      getRepoPage ext cfg reqMethod ep body = e) := by
  refine ⟨getRepoPage_first_match ext cfg reqMethod ep body pre post r hfind hpre hr,
    fun pa e hpa he => ?_⟩
  subst hpa
  rw [getRepoPage_commit_guarded ext cfg reqMethod ep body pre post pa hfind hpre hr]
  simp only [commitGuarded, he]

/-- C3: for a committed Guarded Rule, every declared field whose mandatory
flag is `true` and which appears among no request-body key is collected as
missing; the collected set consists exactly of the mandatory fields that are
absent or named by the empty string (JavaScript's `!find` also fires on a
found empty-string key, whose falsy value negates to true); a non-empty
missing set makes validation fail (either with exactly the collected missing
names, or — when restricted mode rejects first — with the disallowed names),
and whenever the restricted-body check does not fire the failure reports
exactly the collected missing names. -/
theorem mandatoryFieldsMissing (ext : Externals) (cfg : MockApiConfig)
    (reqMethod ep : String) (body : List (String × Json))
    (pre post : List PathConfig) (pa : PostApi)
    (hfind : findMethodConfig (jsToUpperCase reqMethod) cfg.routes =
      some (.rules (pre ++ .post pa :: post)))
    (hpre : ∀ r' ∈ pre, ruleMatches ext cfg ep r' = false)
    (hr : ruleMatches ext cfg ep (.post pa) = true) :
    (∀ f, lookupFlag f (pa.bodyFields.getD []) = some true →
      f ∉ body.map Prod.fst →
      f ∈ missingFields (pa.bodyFields.getD []) (body.map Prod.fst)) ∧
    (∀ f, f ∈ missingFields (pa.bodyFields.getD []) (body.map Prod.fst) ↔
      (lookupFlag f (pa.bodyFields.getD []) = some true ∧
        (f ∉ body.map Prod.fst ∨ f = ""))) ∧
    (missingFields (pa.bodyFields.getD []) (body.map Prod.fst) ≠ [] →
      getRepoPage ext cfg reqMethod ep body =
          .badRequestMissing (missingFields (pa.bodyFields.getD []) (body.map Prod.fst)) ∨
        getRepoPage ext cfg reqMethod ep body =
          .badRequestDisallowed
            (notAllowedFields ((pa.bodyFields.getD []).map Prod.fst) (body.map Prod.fst))) ∧
    ((pa.restrictedBody = true →
        notAllowedFields ((pa.bodyFields.getD []).map Prod.fst) (body.map Prod.fst) = []) →
      missingFields (pa.bodyFields.getD []) (body.map Prod.fst) ≠ [] →
      getRepoPage ext cfg reqMethod ep body =
        .badRequestMissing (missingFields (pa.bodyFields.getD []) (body.map Prod.fst))) := by
  have hcommit := getRepoPage_commit_guarded ext cfg reqMethod ep body pre post pa hfind hpre hr
  have hiff : ∀ f, f ∈ missingFields (pa.bodyFields.getD []) (body.map Prod.fst) ↔
      (lookupFlag f (pa.bodyFields.getD []) = some true ∧
        (f ∉ body.map Prod.fst ∨ f = "")) := by
    intro f
    rw [missingFields, List.mem_filter, Bool.and_eq_true, jsFindFalsy_iff]
    constructor
    · rintro ⟨-, hflag, hff⟩
      exact ⟨by simpa using hflag, hff⟩
    · rintro ⟨hflag, hff⟩
      exact ⟨lookupFlag_eq_some_mem f _ true hflag, by simpa using hflag, hff⟩
  refine ⟨fun f hflag habs => (hiff f).mpr ⟨hflag, Or.inl habs⟩, hiff, ?_, ?_⟩
  · intro hne
    rw [hcommit]
    simp only [commitGuarded, bodyValidationError]
    by_cases hgate : (pa.restrictedBody &&
        !(notAllowedFields ((pa.bodyFields.getD []).map Prod.fst)
          (body.map Prod.fst)).isEmpty) = true
    · right
      rw [if_pos hgate]
    · left
      rw [if_neg hgate, if_pos (by simpa [List.isEmpty_iff] using hne)]
  · intro hgate hne
    rw [hcommit]
    simp only [commitGuarded, bodyValidationError]
    rw [if_neg ?_, if_pos (by simpa [List.isEmpty_iff] using hne)]
    rw [Bool.and_eq_true]
    rintro ⟨h1, h2⟩
    rw [hgate h1] at h2
    simp at h2

/-- C4: for a committed Guarded Rule with `restrictedBody = true`, every
request-body key absent from the declared field names is collected as
disallowed; the collected set consists exactly of the body keys that are
undeclared or named by the empty string (JavaScript's `!find` also fires on
a found empty-string name, whose falsy value negates to true); and a
non-empty disallowed set makes resolution fail with exactly the collected
names — before the missing-mandatory-field check is even consulted. -/
theorem restrictedBodyDisallowed (ext : Externals) (cfg : MockApiConfig)
    (reqMethod ep : String) (body : List (String × Json))
    (pre post : List PathConfig) (pa : PostApi)
    (hfind : findMethodConfig (jsToUpperCase reqMethod) cfg.routes =
      some (.rules (pre ++ .post pa :: post)))
    (hpre : ∀ r' ∈ pre, ruleMatches ext cfg ep r' = false)
    (hr : ruleMatches ext cfg ep (.post pa) = true)
    (hrb : pa.restrictedBody = true) :
    (∀ k, k ∈ body.map Prod.fst → k ∉ (pa.bodyFields.getD []).map Prod.fst →
      k ∈ notAllowedFields ((pa.bodyFields.getD []).map Prod.fst) (body.map Prod.fst)) ∧
    (∀ k, k ∈ notAllowedFields ((pa.bodyFields.getD []).map Prod.fst) (body.map Prod.fst) ↔
      (k ∈ body.map Prod.fst ∧
        (k ∉ (pa.bodyFields.getD []).map Prod.fst ∨ k = ""))) ∧
    (notAllowedFields ((pa.bodyFields.getD []).map Prod.fst) (body.map Prod.fst) ≠ [] →
      getRepoPage ext cfg reqMethod ep body =
        .badRequestDisallowed
          (notAllowedFields ((pa.bodyFields.getD []).map Prod.fst) (body.map Prod.fst))) := by
  have hcommit := getRepoPage_commit_guarded ext cfg reqMethod ep body pre post pa hfind hpre hr
  have hiff : ∀ k,
      k ∈ notAllowedFields ((pa.bodyFields.getD []).map Prod.fst) (body.map Prod.fst) ↔
      (k ∈ body.map Prod.fst ∧
        (k ∉ (pa.bodyFields.getD []).map Prod.fst ∨ k = "")) := by
    intro k
    rw [notAllowedFields, List.mem_filter, jsFindFalsy_iff]
  refine ⟨fun k hk hnd => (hiff k).mpr ⟨hk, Or.inl hnd⟩, hiff, ?_⟩
  intro hne
  rw [hcommit]
  simp only [commitGuarded, bodyValidationError]
  rw [if_pos]
  rw [Bool.and_eq_true]
  exact ⟨hrb, by simpa [List.isEmpty_iff] using hne⟩

/-- C6: when `dbFile` equals the configuration-file sentinel name and
`dbDataPath` points at an existing node of the configuration document, the
located response value equals that node exactly — extraction from the config
document is an identity round-trip. -/
theorem responseLocatorRoundTrip (cfg : MockApiConfig) (ext : Externals) (v : Json)
    (hs : cfg.dbFile = configFileName)
    (hn : getSubRecordFromRoot cfg.dbDataPath cfg.doc = some v) :
    getRequestedData cfg ext = some v := by
  simp only [getRequestedData]
  rw [if_pos (beq_iff_eq.mpr hs)]
  exact hn

/-- C7: for a committed rule whose data lives in an external file (`dbFile`
differs from the sentinel), when retrieval fails on both candidate sources or
deep-path extraction at `dbDataPath` finds no node, resolution yields the
not-found outcome — a total, defined result, not a crash. -/
theorem lookupFailureNotFound (ext : Externals) (cfg : MockApiConfig)
    (reqMethod ep : String) (body : List (String × Json))
    (pre post : List PathConfig) (r : PathConfig)
    (hfind : findMethodConfig (jsToUpperCase reqMethod) cfg.routes =
      some (.rules (pre ++ r :: post)))
    (hpre : ∀ r' ∈ pre, ruleMatches ext cfg ep r' = false)
    (hr : ruleMatches ext cfg ep r = true)
    (hval : ∀ pa, r = PathConfig.post pa →
      bodyValidationError pa (body.map Prod.fst) = none)
    (hext : cfg.dbFile ≠ configFileName)
    (hfail : ext.fetchDoc cfg.dbFile = none ∨
      ∃ d, ext.fetchDoc cfg.dbFile = some d ∧
        getSubRecordFromRoot cfg.dbDataPath d = none) :
    getRepoPage ext cfg reqMethod ep body = .notFound := by
  have hnone := getRequestedData_eq_none cfg ext hext hfail
  rw [getRepoPage_first_match ext cfg reqMethod ep body pre post r hfind hpre hr]
  rw [scanRules_cons_commit ext cfg ep body r [] hr]
  cases r with
  | str p => simp only [commitSimple, hnone]
  | post pa => simp only [commitGuarded, hval pa rfl, hnone]
  | other j => simp [ruleMatches] at hr

/-- C5 (amended): for a committed Guarded Rule whose body validation and data
lookup succeed, a notification is armed iff the rule declares a
`scheduleNotification` policy, the request body holds a truthy value at
`policy.followProp`, and that value parses as a URL; when armed, exactly one
outbound call is scheduled `timeoutInSecond` seconds later to the parsed URL
with method `notificationMethod` defaulting to `GET` and a fixed 5-second
call timeout; with no policy, or with the `followProp` field absent or falsy,
zero calls are scheduled; with a truthy value that does not parse as a URL,
the URL constructor's error escapes uncaught and zero calls are scheduled. -/
theorem notificationArming (ext : Externals) (cfg : MockApiConfig)
    (reqMethod ep : String) (body : List (String × Json))
    (pre post : List PathConfig) (pa : PostApi)
    (hfind : findMethodConfig (jsToUpperCase reqMethod) cfg.routes =
      some (.rules (pre ++ .post pa :: post)))
    (hpre : ∀ r' ∈ pre, ruleMatches ext cfg ep r' = false)
    (hr : ruleMatches ext cfg ep (.post pa) = true)
    (hval : bodyValidationError pa (body.map Prod.fst) = none)
    (d : Json) (hdata : getRequestedData cfg ext = some d)
    (htruthy : jsTruthy d = true) :
    (pa.scheduleNotification = none →
      getRepoPage ext cfg reqMethod ep body = .ok d []) ∧
    (∀ nc, pa.scheduleNotification = some nc →
      (lookupField nc.followProp body = none ∨
        (∃ v, lookupField nc.followProp body = some v ∧ jsTruthy v = false)) →
      getRepoPage ext cfg reqMethod ep body = .ok d []) ∧
    (∀ nc v u, pa.scheduleNotification = some nc →
      lookupField nc.followProp body = some v → jsTruthy v = true →
      ext.parseURL v = some u →
      getRepoPage ext cfg reqMethod ep body =
        .ok d [⟨nc.notificationMethod.getD "GET", u, nc.timeoutInSecond * 1000, 5000⟩]) ∧
    (∀ nc v, pa.scheduleNotification = some nc →
      lookupField nc.followProp body = some v → jsTruthy v = true →
      ext.parseURL v = none →
      getRepoPage ext cfg reqMethod ep body = .uncaughtTypeError) := by
  have hbase : getRepoPage ext cfg reqMethod ep body = scheduleStep ext body pa d := by
    rw [getRepoPage_commit_guarded ext cfg reqMethod ep body pre post pa hfind hpre hr]
    simp [commitGuarded, hval, hdata, htruthy]
  refine ⟨?_, ?_, ?_, ?_⟩
  · intro hnc
    rw [hbase]
    simp [scheduleStep, hnc]
  · intro nc hnc hv
    rw [hbase]
    rcases hv with hv | ⟨v, hv, hfalsy⟩
    · simp [scheduleStep, hnc, hv]
    · simp [scheduleStep, hnc, hv, hfalsy]
  · intro nc v u hnc hv htrv hurl
    rw [hbase]
    simp [scheduleStep, hnc, hv, htrv, hurl]
  · intro nc v hnc hv htrv hbad
    rw [hbase]
    simp [scheduleStep, hnc, hv, htrv, hbad]

/-- C8 (amended): for a committed Guarded Rule with a notification policy,
when the request body's `followProp` value is truthy but cannot be parsed as
a URL, the `URL` constructor's `TypeError` escapes uncaught (the framework
surfaces it as an internal server error): the malformed value is not silently
ignored, but the outcome is not a client bad-request. -/
theorem malformedUrlUncaught (ext : Externals) (cfg : MockApiConfig)
    (reqMethod ep : String) (body : List (String × Json))
    (pre post : List PathConfig) (pa : PostApi)
    (hfind : findMethodConfig (jsToUpperCase reqMethod) cfg.routes =
      some (.rules (pre ++ .post pa :: post)))
    (hpre : ∀ r' ∈ pre, ruleMatches ext cfg ep r' = false)
    (hr : ruleMatches ext cfg ep (.post pa) = true)
    (hval : bodyValidationError pa (body.map Prod.fst) = none)
    (d : Json) (hdata : getRequestedData cfg ext = some d)
    (htruthy : jsTruthy d = true)
    (nc : NotificationConfig) (v : Json)
    (hnc : pa.scheduleNotification = some nc)
    (hv : lookupField nc.followProp body = some v)
    (htrv : jsTruthy v = true)
    (hbad : ext.parseURL v = none) :
    getRepoPage ext cfg reqMethod ep body = .uncaughtTypeError ∧
    (getRepoPage ext cfg reqMethod ep body).isBadRequest = false := by
  have h : getRepoPage ext cfg reqMethod ep body = .uncaughtTypeError := by
    rw [getRepoPage_commit_guarded ext cfg reqMethod ep body pre post pa hfind hpre hr]
    simp [commitGuarded, hval, hdata, htruthy, scheduleStep, hnc, hv, htrv, hbad]
  exact ⟨h, by rw [h]; rfl⟩

/-- C10: an element of a rule list that is neither a string (Simple Rule) nor
a `PostApi` instance (Guarded Rule) is silently skipped: it never matches,
and resolution of the whole list is exactly resolution of the list with the
element removed, so it never produces an error and never commits. -/
theorem otherElementsSkipped (ext : Externals) (cfg : MockApiConfig)
    (ep : String) (body : List (String × Json)) (j : Json)
    (pre post : List PathConfig) :
    scanRules ext cfg ep body (pre ++ PathConfig.other j :: post) =
      scanRules ext cfg ep body (pre ++ post) ∧
    ruleMatches ext cfg ep (PathConfig.other j) = false := by
  refine ⟨?_, rfl⟩
  induction pre with
  | nil => simp only [List.nil_append, scanRules]
  | cons r pre ih =>
    cases r with
    | str p =>
      simp only [List.cons_append, scanRules]
      exact if_congr Iff.rfl rfl ih
    | post pa =>
      simp only [List.cons_append, scanRules]
      exact if_congr Iff.rfl rfl ih
    | other j' =>
      simp only [List.cons_append, scanRules]
      exact ih

/-! ### Concrete instances

Closed instantiations of the external collaborators and of configurations,
used by the witness and counterexample theorems below. -/

/-- ASCII letter test, for URL schemes. -/
def isAsciiLetter (c : Char) : Bool :=
  (97 ≤ c.toNat && c.toNat ≤ 122) || (65 ≤ c.toNat && c.toNat ≤ 90)

/-- After a scheme's first letter: further scheme letters, then `://` and a
non-empty remainder. -/
def afterScheme : List Char → Bool
  | ':' :: '/' :: '/' :: rest => !rest.isEmpty
  | c :: rest => isAsciiLetter c && afterScheme rest
  | [] => false

/-- Recognizer for `scheme://rest` strings with a non-empty ASCII-letter
scheme and a non-empty remainder. As an instantiation of the abstract
`parseURL` oracle it is a sound under-approximation of the WHATWG `URL`
constructor that agrees with it on every input the closed theorems below
exercise: such strings the constructor accepts, and strings without any
colon (all the rejecting inputs used here) make it throw. -/
def looksLikeUrl (s : String) : Bool :=
  match s.data with
  | c :: rest => isAsciiLetter c && afterScheme rest
  | [] => false

/-- Concrete external collaborators: templates join with a slash, the
compiled template matches exactly the equal path, no external data file
resolves, and a string value parses as a URL iff `looksLikeUrl` accepts it
(non-string values, which the constructor stringifies, are rejected — none
of the closed theorems passes one). -/
def extW : Externals where
  template := fun p r => p ++ "/" ++ r
  test := fun t ep => t == ep
  fetchDoc := fun _ => none
  parseURL := fun v =>
    match v with
    | .str s => if looksLikeUrl s then some s else none
    | _ => none

/-- A Guarded Rule declaring `bodyFields = {a: true, b: false}` and no
restriction. -/
def paW : PostApi :=
  { path := "hit", bodyFields := some [("a", true), ("b", false)],
    restrictedBody := false, scheduleNotification := none }

/-- A configuration whose POST list holds a non-matching Simple Rule, the
Guarded Rule `paW`, and a further Simple Rule that would also match the
request path used in the witnesses. -/
def cfgW1 : MockApiConfig :=
  { apiRoutePrefix := "", dbFile := configFileName, dbDataPath := "data",
    routes := [("POST", .rules [.str "miss", .post paW, .str "hit"])],
    doc := .obj [("data", .str "payload")] }

/-- A Guarded Rule with `restrictedBody = true` and `bodyFields = {a: true}`. -/
def paW2 : PostApi :=
  { path := "r", bodyFields := some [("a", true)],
    restrictedBody := true, scheduleNotification := none }

/-- A configuration whose POST list holds only the restricted rule `paW2`. -/
def cfgW2 : MockApiConfig :=
  { apiRoutePrefix := "", dbFile := configFileName, dbDataPath := "data",
    routes := [("POST", .rules [.post paW2])],
    doc := .obj [("data", .str "payload")] }

/-- A notification policy following the body field `cb` with the default
method and a 2-second delay. -/
def ncW : NotificationConfig :=
  { followProp := "cb", notificationMethod := none, timeoutInSecond := 2 }

/-- A Guarded Rule with no body contract and the notification policy `ncW`. -/
def paW3 : PostApi :=
  { path := "hook", bodyFields := none,
    restrictedBody := false, scheduleNotification := some ncW }

/-- A configuration whose data source is the config document itself and whose
POST list holds only the notifying rule `paW3`. -/
def cfgW3 : MockApiConfig :=
  { apiRoutePrefix := "", dbFile := configFileName, dbDataPath := "data",
    routes := [("POST", .rules [.post paW3])],
    doc := .obj [("data", .str "payload")] }

/-- A configuration naming an external data file (`extW` fails to fetch
it). -/
def cfgW4 : MockApiConfig :=
  { apiRoutePrefix := "", dbFile := "db.json", dbDataPath := "x",
    routes := [("GET", .rules [.str "data"])],
    doc := .obj [] }

/-- A configuration whose lower-cased `get` entry holds a non-array value. -/
def cfgW5 : MockApiConfig :=
  { apiRoutePrefix := "", dbFile := configFileName, dbDataPath := "data",
    routes := [("get", .notArray (Json.str "oops"))],
    doc := .obj [("data", .str "payload")] }

/-! ### Witnesses and counterexamples -/

/-- C1 witness: with two rules matching `/hit`, the first (`paW`) commits and
its failing mandatory-field validation aborts resolution with the validation
error, never reaching the later matching rule. -/
theorem firstMatchCommits_witness :
    getRepoPage extW cfgW1 "POST" "/hit" [] =
        scanRules extW cfgW1 "/hit" [] [PathConfig.post paW] ∧
      getRepoPage extW cfgW1 "POST" "/hit" [] = Outcome.badRequestMissing ["a"] := by
  have h := firstMatchCommits extW cfgW1 "POST" "/hit" []
    [PathConfig.str "miss"] [PathConfig.str "hit"] (PathConfig.post paW)
    rfl
    (by intro r' hr'; rw [List.mem_singleton] at hr'; subst hr'; rfl)
    rfl
  exact ⟨h.1, h.2 paW (Outcome.badRequestMissing ["a"]) rfl rfl⟩

/-- C2 witness: a DELETE request against a configuration declaring only a
POST list yields method-not-allowed. -/
theorem methodNotMatchedOutcome_witness :
    getRepoPage extW cfgW1 "DELETE" "/hit" [] = Outcome.methodNotAllowed := by
  exact methodNotMatchedOutcome extW cfgW1 "DELETE" "/hit" []
    (by intro p hp; simp only [cfgW1] at hp; rw [List.mem_singleton] at hp; subst hp; decide)

/-- C3 witness: `bodyFields = {a: true, b: false}` with body `{}` collects
missing `["a"]` and fails with exactly that list, while body `{a: 1}` passes
the mandatory check. -/
theorem mandatoryFieldsMissing_witness :
    missingFields [("a", true), ("b", false)] [] = ["a"] ∧
    getRepoPage extW cfgW1 "POST" "/hit" [] = Outcome.badRequestMissing ["a"] ∧
    missingFields [("a", true), ("b", false)] ["a"] = [] := by
  have h := mandatoryFieldsMissing extW cfgW1 "POST" "/hit" []
    [PathConfig.str "miss"] [PathConfig.str "hit"] paW
    rfl
    (by intro r' hr'; rw [List.mem_singleton] at hr'; subst hr'; rfl)
    rfl
  exact ⟨by decide, h.2.2.2 (fun hh => absurd hh (by decide)) (by decide), by decide⟩

/-- C4 witness: `restrictedBody = true`, `bodyFields = {a: true}` and body
`{a: 1, z: 2}` collects disallowed `["z"]` and fails with exactly that
list. -/
theorem restrictedBodyDisallowed_witness :
    notAllowedFields ["a"] ["a", "z"] = ["z"] ∧
    getRepoPage extW cfgW2 "POST" "/r" [("a", Json.num 1), ("z", Json.num 2)] =
      Outcome.badRequestDisallowed ["z"] := by
  have h := restrictedBodyDisallowed extW cfgW2 "POST" "/r"
    [("a", Json.num 1), ("z", Json.num 2)] [] [] paW2
    rfl
    (fun r' hr' => absurd hr' (List.not_mem_nil r'))
    rfl rfl
  exact ⟨by decide, h.2.2 (by decide)⟩

/-- C5 counterexample: at this input the rule declares a policy, body
validation and data lookup succeed, and the body holds a truthy value at
`followProp` — the claim then demands exactly one scheduled outbound call —
yet the value does not parse as a URL, the `URL` constructor throws, zero
calls are scheduled, and resolution fails with the uncaught error. -/
theorem notificationArming_counterexample :
    bodyValidationError paW3 ["cb"] = none ∧
    getRequestedData cfgW3 extW = some (Json.str "payload") ∧
    jsTruthy (Json.str "payload") = true ∧
    paW3.scheduleNotification = some ncW ∧
    lookupField "cb" [("cb", Json.str "not a url")] = some (Json.str "not a url") ∧
    jsTruthy (Json.str "not a url") = true ∧
    getRepoPage extW cfgW3 "POST" "/hook" [("cb", Json.str "not a url")] =
      Outcome.uncaughtTypeError :=
  ⟨rfl, rfl, rfl, rfl, rfl, rfl, rfl⟩

/-- C5 witness: with `followProp = "cb"`, body `{cb:
"https://example.com/hook"}` and `timeoutInSecond = 2`, exactly one call is
scheduled 2000 ms later to that URL with the default method GET and the
5000 ms call timeout; a body without `cb` schedules zero calls. -/
theorem notificationArming_witness :
    getRepoPage extW cfgW3 "POST" "/hook"
        [("cb", Json.str "https://example.com/hook")] =
      Outcome.ok (Json.str "payload")
        [{ method := "GET", url := "https://example.com/hook",
           delayMs := 2000, callTimeoutMs := 5000 }] ∧
    getRepoPage extW cfgW3 "POST" "/hook" [] = Outcome.ok (Json.str "payload") [] := by
  have h := notificationArming extW cfgW3 "POST" "/hook"
    [("cb", Json.str "https://example.com/hook")] [] [] paW3
    rfl (fun r' hr' => absurd hr' (List.not_mem_nil r')) rfl rfl
    (Json.str "payload") rfl rfl
  have h2 := notificationArming extW cfgW3 "POST" "/hook" [] [] [] paW3
    rfl (fun r' hr' => absurd hr' (List.not_mem_nil r')) rfl rfl
    (Json.str "payload") rfl rfl
  exact ⟨h.2.2.1 ncW (Json.str "https://example.com/hook")
      "https://example.com/hook" rfl rfl rfl rfl,
    h2.2.1 ncW rfl (Or.inl rfl)⟩

/-- C6 witness: on `cfgW3` the sentinel data source and the path `data`
return exactly the node `"payload"` of the configuration document. -/
theorem responseLocatorRoundTrip_witness :
    getRequestedData cfgW3 extW = some (Json.str "payload") :=
  responseLocatorRoundTrip cfgW3 extW (Json.str "payload") rfl rfl

/-- C7 witness: a matched Simple Rule whose external data file fails to fetch
on both candidates resolves to not-found. -/
theorem lookupFailureNotFound_witness :
    getRepoPage extW cfgW4 "GET" "/data" [] = Outcome.notFound := by
  exact lookupFailureNotFound extW cfgW4 "GET" "/data" [] [] []
    (PathConfig.str "data")
    rfl (fun r' hr' => absurd hr' (List.not_mem_nil r')) rfl
    (fun pa hpa => PathConfig.noConfusion hpa)
    (by decide) (Or.inl rfl)

/-- C8 counterexample: the truthy `followProp` value `"bad url"` has no
scheme, so the real `URL` constructor throws; resolution fails with the
uncaught `TypeError` — an outcome outside the bad-request class the claim
demands. -/
theorem malformedUrlUncaught_counterexample :
    getRepoPage extW cfgW3 "POST" "/hook" [("cb", Json.str "bad url")] =
      Outcome.uncaughtTypeError ∧
    (getRepoPage extW cfgW3 "POST" "/hook"
        [("cb", Json.str "bad url")]).isBadRequest = false :=
  ⟨rfl, rfl⟩

/-- C8 witness: the amended statement at a concrete malformed endpoint. -/
theorem malformedUrlUncaught_witness :
    getRepoPage extW cfgW3 "POST" "/hook" [("cb", Json.str "nourl")] =
      Outcome.uncaughtTypeError ∧
    (getRepoPage extW cfgW3 "POST" "/hook"
        [("cb", Json.str "nourl")]).isBadRequest = false := by
  exact malformedUrlUncaught extW cfgW3 "POST" "/hook" [("cb", Json.str "nourl")]
    [] [] paW3
    rfl (fun r' hr' => absurd hr' (List.not_mem_nil r')) rfl rfl
    (Json.str "payload") rfl rfl ncW (Json.str "nourl") rfl rfl rfl rfl

/-- C9 witness: a routes entry declared under lower-case `get` whose value is
not an array makes a GET request resolve to the internal error. -/
theorem invalidRuleListInternalError_witness :
    getRepoPage extW cfgW5 "GET" "/x" [] = Outcome.internalError := by
  exact (invalidRuleListInternalError extW cfgW5 "GET" "/x" [] "get"
    (Json.str "oops") [] []
    rfl (fun p hp => absurd hp (List.not_mem_nil p)) (by decide)).1

end StaticJsonApi
